import Mathlib

/-!
# nostr-terminal-chat: an embedding of `main.go`

The program is glue around the go-nostr library. The library calls are taken
as parameters (`Lib`), the effects of the program on the outside (standard
output, the relay) are recorded in a `World`, and each function of `main.go`
becomes a function on worlds:

* a Go `(T, error)` result is an `Except Err T`, a Go `error` result an
  `Option Err`; an error is represented by its message, which is what the
  `%s` verb prints;
* a function that can panic returns an `Except Panic _` or an `Exit`;
* the lines the `bufio.Scanner` yields from standard input are a `List String`;
* the `select` of `messageHandler` is driven by a list of `Sel`, one entry per
  execution of the `select` statement: which case fired and, for the receive
  case, the value received (`none` for a nil `*Event`);
* the context is not a value of its own: its cancellation is the `ctxDone`
  outcome of a `select`, and the library calls that take it receive the world;
* which events a subscription's stream carries is decided by the relay
  transport, not by `main.go`: `Filter.Matches` and `subscriptionEvents` model
  it from the specification.
-/

namespace NostrChat

/-! ## Data model -/

/-- A Go `[]byte`. -/
abbrev Bytes := List (Fin 256)

/-- A Go `error`, represented by the text of its `Error()` method. -/
abbrev Err := String

/-- The fields of `nostr.Event`. -/
structure Event where
  ID : String
  PubKey : String
  CreatedAt : Int
  Kind : Int
  Tags : List (List String)
  Content : String
  Sig : String
  deriving DecidableEq, Repr

/-- The fields of `nostr.Filter` that `receiveMessages` sets; `Tags` is the
`nostr.TagMap`, a map from tag name to accepted values. -/
structure Filter where
  Kinds : List Int
  Authors : List String
  Tags : List (String × List String)
  deriving DecidableEq, Repr

/-- The handle `nostr.RelayConnect` returns. -/
structure Relay where
  URL : String
  deriving DecidableEq, Repr

/-- The dynamic value (`any`) that `nip19.Decode` returns: a string, or a value
of another dynamic type (a pointer structure, or nil), named by its type. -/
inductive Any where
  | string (s : String)
  | other (typeName : String)
  deriving DecidableEq, Repr

/-- The value a panic carries: the error given to `panic(err)`, or one of the
two run-time panics the code can raise. -/
inductive Panic where
  | error (err : Err)
  | nilDereference
  | typeAssertion
  deriving DecidableEq, Repr

/-- How a function that may panic or wait on a `select` ends: it returns, it
panics, or it is still waiting in `select` because neither case is ready. -/
inductive Exit where
  | returned
  | panicked (p : Panic)
  | waiting
  deriving DecidableEq, Repr

/-- One execution of the `select` in `messageHandler`: `ctx.Done()` fired, or a
value arrived on `subscription.Events` (`none` is a nil `*Event`, which is also
what a closed channel yields). -/
inductive Sel where
  | ctxDone
  | recv (event : Option Event)
  deriving DecidableEq, Repr

/-- What the program has done to the outside so far. -/
structure World where
  /-- Everything written to standard output, in order. -/
  stdout : String
  /-- The URLs `nostr.RelayConnect` was called with. -/
  dialed : List String
  /-- The filter lists `relay.Subscribe` was called with. -/
  subscribed : List (List Filter)
  /-- The number of `subscription.Close()` calls. -/
  closed : Nat
  /-- The events `relay.Publish` was called with. -/
  published : List Event
  /-- The arguments (receiverPub, senderPrivateKey) of each
  `go receiveMessages(...)` statement executed. -/
  goroutines : List (String × String)
  /-- Whether the `cancel` function of the shared context has been called. -/
  cancelled : Bool
  deriving DecidableEq, Repr

/-- The world when the process starts. -/
def World.start : World :=
  { stdout := "", dialed := [], subscribed := [], closed := 0, published := [],
    goroutines := [], cancelled := false }

/-- The effect of `fmt.Print(s)`. -/
def World.print (w : World) (s : String) : World :=
  { w with stdout := w.stdout ++ s }

/-- The go-nostr functions the program calls. A call whose answer may change
from one call to the next (randomness, the clock, the network) receives the
world at the time of the call. `Sign` has a pointer receiver: it returns the
event as it leaves it, and its error. -/
structure Lib where
  GeneratePrivateKey : World → String
  GetPublicKey : String → Except Err String
  RelayConnect : World → String → Except Err Relay
  Decode : String → Except Err (String × Any)
  ComputeSharedSecret : String → String → Except Err Bytes
  Encrypt : World → String → Bytes → Except Err String
  Decrypt : String → Bytes → Except Err String
  Now : World → Int
  Sign : Event → String → Event × Option Err
  Subscribe : World → Relay → List Filter → Option Err
  Publish : World → Relay → Event → Option Err

/-! ## Constants -/

def relayURL : String := "wss://relay.damus.io"

def receiverPub : String :=
  "npub1c0qyae9ggdxmrs9gnpkrc5t0dzncfgypvmrx9rzygclzyld5q4nqe9ja8j"

/-- The constant `nostr.KindEncryptedDirectMessage`. -/
def KindEncryptedDirectMessage : Int := 4

/-! ## The functions of `main.go` -/

/-- `decodePublicKey`: panics with the error of `nip19.Decode`, otherwise
asserts that the decoded value is a string; the decoded prefix is dropped. -/
def decodePublicKey (lib : Lib) (encodedKey : String) : Except Panic String :=
  match lib.Decode encodedKey with
  | Except.error err => Except.error (Panic.error err)
  | Except.ok (_, decodedKey) =>
    match decodedKey with
    | Any.string s => Except.ok s
    | Any.other _ => Except.error Panic.typeAssertion

/-- `messageHandler`: the loop around `select`, one list entry per iteration. -/
def messageHandler (lib : Lib) (sharedKey : Bytes) : List Sel → World → Exit × World
  | [], w => (Exit.waiting, w)
  | Sel.ctxDone :: _, w => (Exit.returned, w)
  | Sel.recv none :: _, w => (Exit.panicked Panic.nilDereference, w)
  | Sel.recv (some event) :: rest, w =>
    if event.Kind = KindEncryptedDirectMessage then
      match lib.Decrypt event.Content sharedKey with
      | Except.error err => (Exit.panicked (Panic.error err), w)
      | Except.ok decryptedMessage =>
        messageHandler lib sharedKey rest
          (w.print ("\rMessage received: " ++ decryptedMessage ++ "\nSend Message: "))
    else
      messageHandler lib sharedKey rest w

/-- `receiveMessages`: the deferred `subscription.Close()` runs when
`messageHandler` returns or panics, not while it waits. -/
def receiveMessages (lib : Lib) (relay : Relay) (receiverPub senderPrivateKey : String)
    (sel : List Sel) (w : World) : Exit × World :=
  match lib.ComputeSharedSecret receiverPub senderPrivateKey with
  | Except.error err => (Exit.panicked (Panic.error err), w)
  | Except.ok sharedKey =>
    match lib.GetPublicKey senderPrivateKey with
    | Except.error err => (Exit.panicked (Panic.error err), w)
    | Except.ok senderPublicKey =>
      let filters : List Filter :=
        [{ Kinds := [KindEncryptedDirectMessage],
           Authors := [receiverPub],
           Tags := [("p", [senderPublicKey])] }]
      let w1 : World := { w with subscribed := w.subscribed ++ [filters] }
      match lib.Subscribe w relay filters with
      | some err => (Exit.panicked (Panic.error err), w1)
      | none =>
        match messageHandler lib sharedKey sel w1 with
        | (Exit.waiting, w2) => (Exit.waiting, w2)
        | (exit, w2) => (exit, { w2 with closed := w2.closed + 1 })

/-- `sendMessage`. -/
def sendMessage (lib : Lib) (relay : Relay)
    (senderPub receiverPub senderPrivateKey message : String) (w : World) :
    Option Err × World :=
  match lib.ComputeSharedSecret receiverPub senderPrivateKey with
  | Except.error err => (some err, w)
  | Except.ok sharedKey =>
    match lib.Encrypt w message sharedKey with
    | Except.error err => (some err, w)
    | Except.ok encryptedMessage =>
      let event : Event :=
        { ID := "",
          PubKey := senderPub,
          CreatedAt := lib.Now w,
          Kind := KindEncryptedDirectMessage,
          Tags := [["p", receiverPub]],
          Content := encryptedMessage,
          Sig := "" }
      let signed : Event := (lib.Sign event senderPrivateKey).1
      (lib.Publish w relay signed, { w with published := w.published ++ [signed] })

/-- The body of the `for scanner.Scan()` loop of `handleUserInput`, over the
lines the scanner yields. -/
def scanLoop (lib : Lib) (relay : Relay) (senderPub receiverPub senderPrivateKey : String) :
    List String → World → World
  | [], w => w
  | message :: rest, w =>
    match sendMessage lib relay senderPub receiverPub senderPrivateKey message w with
    | (some err, w1) =>
      scanLoop lib relay senderPub receiverPub senderPrivateKey rest
        ((w1.print ("Error sending message: " ++ err ++ "\n")).print "Send Message: ")
    | (none, w1) =>
      scanLoop lib relay senderPub receiverPub senderPrivateKey rest
        ((w1.print ("\rMessage sent: " ++ message ++ "\n")).print "Send Message: ")

/-- `handleUserInput`; `stdin` is the sequence of lines read up to end of input. -/
def handleUserInput (lib : Lib) (relay : Relay)
    (senderPub receiverPub senderPrivateKey : String) (stdin : List String) (w : World) :
    World :=
  scanLoop lib relay senderPub receiverPub senderPrivateKey stdin (w.print "Send Message: ")

/-- `main`, on its own goroutine: the `go receiveMessages(...)` statement is
recorded, and the deferred `cancel()` runs on return and on panic. -/
def main (lib : Lib) (stdin : List String) (w : World) : Exit × World :=
  let privateKey := lib.GeneratePrivateKey w
  match lib.GetPublicKey privateKey with
  | Except.error err => (Exit.panicked (Panic.error err), { w with cancelled := true })
  | Except.ok publicKey =>
    let w1 : World := { w with dialed := w.dialed ++ [relayURL] }
    match lib.RelayConnect w relayURL with
    | Except.error err => (Exit.panicked (Panic.error err), { w1 with cancelled := true })
    | Except.ok relay =>
      match decodePublicKey lib receiverPub with
      | Except.error p => (Exit.panicked p, { w1 with cancelled := true })
      | Except.ok receiverPubDecoded =>
        let w2 : World :=
          { w1 with goroutines := w1.goroutines ++ [(receiverPubDecoded, privateKey)] }
        let w3 := handleUserInput lib relay publicKey receiverPubDecoded privateKey stdin w2
        (Exit.returned, { w3 with cancelled := true })

/-! ## Vocabulary of the statements -/

/-- What go-nostr's `Event.Sign` does to the event it signs: it leaves kind,
tags and content as they are and overwrites the author with the public key of
the signing key, the one `GetPublicKey` derives; when the key is not valid, so
that no public key can be derived, it returns its error with the author
untouched. -/
def SignContract (lib : Lib) : Prop :=
  ∀ (e : Event) (secretKey : String),
    ((lib.Sign e secretKey).1).Kind = e.Kind ∧
    ((lib.Sign e secretKey).1).Tags = e.Tags ∧
    ((lib.Sign e secretKey).1).Content = e.Content ∧
    ((lib.Sign e secretKey).1).PubKey =
      (match lib.GetPublicKey secretKey with
       | Except.ok publicKey => publicKey
       | Except.error _ => e.PubKey)

/-- The event `sendMessage` builds before it signs it. -/
def unsignedEvent (senderPub receiverPub : String) (createdAt : Int) (content : String) :
    Event :=
  { ID := "", PubKey := senderPub, CreatedAt := createdAt,
    Kind := KindEncryptedDirectMessage, Tags := [["p", receiverPub]],
    Content := content, Sig := "" }

/-- What `handleUserInput` prints after one send: the error line, or the echo
of the line sent, and then a fresh prompt. -/
def sendReport (message : String) : Option Err → String
  | some err => "Error sending message: " ++ err ++ "\n" ++ "Send Message: "
  | none => "\rMessage sent: " ++ message ++ "\n" ++ "Send Message: "

/-- One turn of the sender on a line: `sendMessage` once, then its report. -/
def sendTurn (lib : Lib) (relay : Relay) (senderPub receiverPub senderPrivateKey : String)
    (w : World) (message : String) : World :=
  (sendMessage lib relay senderPub receiverPub senderPrivateKey message w).2.print
    (sendReport message
      (sendMessage lib relay senderPub receiverPub senderPrivateKey message w).1)

/-- The results `sendMessage` returns when the lines are sent one after the
other, in order, the first in world `w` and each later one in the world the
turn before it left. -/
def sendResults (lib : Lib) (relay : Relay) (senderPub receiverPub senderPrivateKey : String) :
    List String → World → List (Option Err)
  | [], _ => []
  | message :: rest, w =>
    (sendMessage lib relay senderPub receiverPub senderPrivateKey message w).1 ::
      sendResults lib relay senderPub receiverPub senderPrivateKey rest
        (sendTurn lib relay senderPub receiverPub senderPrivateKey w message)

/-- The select outcomes in which the given events arrive on
`subscription.Events` one after the other, with no cancellation in between. -/
def deliver (events : List Event) : List Sel :=
  events.map (fun e => Sel.recv (some e))

/-- The text decryption gives for the content of an event ("" if it fails). -/
def plaintext (lib : Lib) (sharedKey : Bytes) (event : Event) : String :=
  match lib.Decrypt event.Content sharedKey with
  | Except.ok decryptedMessage => decryptedMessage
  | Except.error _ => ""

/-- The display of a list of events: over the events of kind
encrypted-direct-message, in arrival order, the concatenation of the received
line and the prompt. -/
def receivedText (lib : Lib) (sharedKey : Bytes) (events : List Event) : String :=
  String.join
    ((events.filter (fun e => e.Kind = KindEncryptedDirectMessage)).map
      (fun e => "\rMessage received: " ++ plaintext lib sharedKey e ++ "\nSend Message: "))

/-- Every event of kind encrypted-direct-message in the list decrypts. -/
def AllDecrypt (lib : Lib) (sharedKey : Bytes) (events : List Event) : Prop :=
  ∀ e ∈ events, e.Kind = KindEncryptedDirectMessage →
    ∃ p, lib.Decrypt e.Content sharedKey = Except.ok p

/-- The filter `receiveMessages` subscribes with. -/
def receiverFilter (receiverPub senderPublicKey : String) : Filter :=
  { Kinds := [KindEncryptedDirectMessage],
    Authors := [receiverPub],
    Tags := [("p", [senderPublicKey])] }

/-- Whether a tag of an event has the given name and one of the given values
(a tag is its name followed by its value and further entries). -/
def tagIn (name : String) (values : List String) : List String → Bool
  | n :: v :: _ => decide (n = name) && decide (v ∈ values)
  | _ => false

/-- Modelled from the spec: the matching of an event against a `Filter`, which
is done by the relay transport (go-nostr), not by `main.go`. An event matches
when its kind is one of the filter's kinds, its author one of the filter's
authors, and for every tag name of the filter it carries a tag of that name
with one of the accepted values; a field left empty does not constrain. -/
def Filter.Matches (f : Filter) (e : Event) : Bool :=
  decide (f.Kinds = [] ∨ e.Kind ∈ f.Kinds) &&
  decide (f.Authors = [] ∨ e.PubKey ∈ f.Authors) &&
  f.Tags.all (fun t => e.Tags.any (tagIn t.1 t.2))

/-- Modelled from the spec: the event stream of a subscription, which the relay
transport (go-nostr) provides. Of the events the relay sends, in order, it
yields those that match one of the subscription's filters and drops the
others. -/
def subscriptionEvents (filters : List Filter) (incoming : List Event) : List Event :=
  incoming.filter (fun e => filters.any (fun f => f.Matches e))

/-- The three clauses of the receiver's filter, in the words of the
specification: the kind is encrypted-direct-message, the author is the
configured peer, and the event carries a "p" tag equal to the local public
key. -/
def ThreeClauses (peer localPublicKey : String) (e : Event) : Prop :=
  e.Kind = KindEncryptedDirectMessage ∧ e.PubKey = peer ∧
    ∃ more, ("p" :: localPublicKey :: more) ∈ e.Tags

/-- The line and prompt the receiver prints for a displayed event. -/
def displayLine (lib : Lib) (sharedKey : Bytes) (e : Event) : String :=
  "\rMessage received: " ++ plaintext lib sharedKey e ++ "\nSend Message: "

/-! ## Example collaborators, for evaluating the functions -/

/-- A library in which every call succeeds, except that `Decode` accepts only
the configured peer key, `Decrypt` rejects the ciphertext "garbage" and the
relay rejects every second event. `Sign` writes the id, the signature and, as
author, the public key of the signing key. -/
def exampleLib : Lib where
  GeneratePrivateKey := fun _ => "sk-local"
  GetPublicKey := fun sk => Except.ok ("pub-of-" ++ sk)
  RelayConnect := fun _ url => Except.ok { URL := url }
  Decode := fun s =>
    if s = receiverPub then Except.ok ("npub", Any.string "peer-hex")
    else Except.error "invalid bech32 string"
  ComputeSharedSecret := fun _ _ => Except.ok [1, 2, 3]
  Encrypt := fun _ m _ => Except.ok ("enc:" ++ m)
  Decrypt := fun c _ =>
    if c = "garbage" then Except.error "invalid padding" else Except.ok ("dec:" ++ c)
  Now := fun w => 1700000000 + w.published.length
  Sign := fun e sk =>
    ({ e with ID := "id", PubKey := "pub-of-" ++ sk, Sig := "sig-by-" ++ sk }, none)
  Subscribe := fun _ _ _ => none
  Publish := fun w _ _ => if w.published.length % 2 = 1 then some "relay rejected" else none

/-- The relay handle used in the examples. -/
def exampleRelay : Relay := { URL := relayURL }

/-- The event the example sender publishes for the message
"¡olé! [\"p\",\"x\"] ✓" in the starting world. -/
def exampleSent : Event :=
  { ID := "id", PubKey := "pub-of-sk-local", CreatedAt := 1700000000, Kind := 4,
    Tags := [["p", "peer-hex"]], Content := "enc:¡olé! [\"p\",\"x\"] ✓",
    Sig := "sig-by-sk-local" }

/-- An encrypted direct message tagged to the local key of the examples and
authored by a key that is not the peer. -/
def thirdPartyEvent : Event :=
  { ID := "e1", PubKey := "third-party-hex", CreatedAt := 1700000001, Kind := 4,
    Tags := [["p", "pub-of-sk-local"]], Content := "c1", Sig := "s1" }

/-- An encrypted direct message of the peer of the examples, tagged to another
key than the local one. -/
def strayEvent : Event :=
  { ID := "e5", PubKey := "peer-hex", CreatedAt := 1700000005, Kind := 4,
    Tags := [["p", "somebody-else"], ["e", "pub-of-sk-local"]], Content := "c5", Sig := "s5" }

/-- An encrypted direct message of the peer of the examples. -/
def peerEvent : Event :=
  { ID := "e2", PubKey := "peer-hex", CreatedAt := 1700000002, Kind := 4,
    Tags := [["p", "pub-of-sk-local"]], Content := "c2", Sig := "s2" }

/-- A text note (kind 1) of the peer of the examples. -/
def noteEvent : Event :=
  { ID := "e3", PubKey := "peer-hex", CreatedAt := 1700000003, Kind := 1,
    Tags := [], Content := "c3", Sig := "s3" }

/-- An encrypted direct message whose content the example library cannot
decrypt. -/
def garbageEvent : Event :=
  { ID := "e4", PubKey := "peer-hex", CreatedAt := 1700000004, Kind := 4,
    Tags := [["p", "pub-of-sk-local"]], Content := "garbage", Sig := "s4" }

/-! ## `sendMessage` -/

theorem sendMessage_secret_error (lib : Lib) (relay : Relay)
    (senderPub receiverPub senderPrivateKey message : String) (w : World) (err : Err)
    (h : lib.ComputeSharedSecret receiverPub senderPrivateKey = Except.error err) :
    sendMessage lib relay senderPub receiverPub senderPrivateKey message w = (some err, w) := by
  simp [sendMessage, h]

theorem sendMessage_encrypt_error (lib : Lib) (relay : Relay)
    (senderPub receiverPub senderPrivateKey message : String) (w : World) (key : Bytes)
    (err : Err)
    (hk : lib.ComputeSharedSecret receiverPub senderPrivateKey = Except.ok key)
    (he : lib.Encrypt w message key = Except.error err) :
    sendMessage lib relay senderPub receiverPub senderPrivateKey message w = (some err, w) := by
  simp [sendMessage, hk, he]

theorem sendMessage_publish (lib : Lib) (relay : Relay)
    (senderPub receiverPub senderPrivateKey message : String) (w : World) (key : Bytes)
    (c : String)
    (hk : lib.ComputeSharedSecret receiverPub senderPrivateKey = Except.ok key)
    (he : lib.Encrypt w message key = Except.ok c) :
    sendMessage lib relay senderPub receiverPub senderPrivateKey message w =
      (lib.Publish w relay
          (lib.Sign (unsignedEvent senderPub receiverPub (lib.Now w) c) senderPrivateKey).1,
        { w with published := w.published ++
          [(lib.Sign (unsignedEvent senderPub receiverPub (lib.Now w) c) senderPrivateKey).1] }) := by
  simp [sendMessage, hk, he, unsignedEvent]

/-- A send leaves everything but the list of published events as it was. -/
theorem sendMessage_stdout (lib : Lib) (relay : Relay)
    (senderPub receiverPub senderPrivateKey message : String) (w : World) :
    (sendMessage lib relay senderPub receiverPub senderPrivateKey message w).2.stdout =
      w.stdout := by
  cases hk : lib.ComputeSharedSecret receiverPub senderPrivateKey with
  | error err => simp [sendMessage, hk]
  | ok key =>
    cases he : lib.Encrypt w message key with
    | error err => simp [sendMessage, hk, he]
    | ok c => simp [sendMessage, hk, he]

/-- C1 fails as stated: the example library signs as go-nostr does, and a send
on behalf of "someone-else" with the secret key "sk-local" hands `Publish` an
event whose author is the public key of "sk-local", not "someone-else". -/
theorem sendMessage_author_overwritten :
    (sendMessage exampleLib exampleRelay "someone-else" "peer-hex" "sk-local" "hi"
        World.start).2.published =
      [{ ID := "id", PubKey := "pub-of-sk-local", CreatedAt := 1700000000, Kind := 4,
         Tags := [["p", "peer-hex"]], Content := "enc:hi", Sig := "sig-by-sk-local" }] ∧
    "pub-of-sk-local" ≠ "someone-else" := by
  decide

/-- C1 as amended: with `Sign` doing what go-nostr's does, whenever
`sendMessage` hands an event to `Publish` (for any message, the empty one
included, and any keys), that event has kind encrypted-direct-message, content
the result of `Encrypt(message, ComputeSharedSecret(receiverPub,
senderPrivateKey))`, and a tag list that is exactly the single tag
("p", receiverPub), in which the message does not occur; its author is the
public key of `senderPrivateKey`, hence `senderPub` when `senderPub` is that
key, and it is `senderPub` also when `senderPrivateKey` has no public key. -/
theorem sendMessage_signed_event (lib : Lib) (relay : Relay)
    (senderPub receiverPub senderPrivateKey message : String) (w : World) (e : Event)
    (hsign : SignContract lib)
    (hpub : (sendMessage lib relay senderPub receiverPub senderPrivateKey message w).2.published
      = w.published ++ [e]) :
    e.Kind = KindEncryptedDirectMessage ∧
    (∃ key, lib.ComputeSharedSecret receiverPub senderPrivateKey = Except.ok key ∧
      lib.Encrypt w message key = Except.ok e.Content) ∧
    e.Tags = [["p", receiverPub]] ∧
    (∀ publicKey, lib.GetPublicKey senderPrivateKey = Except.ok publicKey →
      e.PubKey = publicKey) ∧
    (lib.GetPublicKey senderPrivateKey = Except.ok senderPub → e.PubKey = senderPub) ∧
    (∀ err, lib.GetPublicKey senderPrivateKey = Except.error err → e.PubKey = senderPub) := by
  cases hk : lib.ComputeSharedSecret receiverPub senderPrivateKey with
  | error err =>
    rw [sendMessage_secret_error lib relay senderPub receiverPub senderPrivateKey message w err hk]
      at hpub
    simp at hpub
  | ok key =>
    cases he : lib.Encrypt w message key with
    | error err =>
      rw [sendMessage_encrypt_error lib relay senderPub receiverPub senderPrivateKey message w
        key err hk he] at hpub
      simp at hpub
    | ok c =>
      rw [sendMessage_publish lib relay senderPub receiverPub senderPrivateKey message w
        key c hk he] at hpub
      have heq : (lib.Sign (unsignedEvent senderPub receiverPub (lib.Now w) c)
          senderPrivateKey).1 = e := by
        simpa using hpub
      have hkeep := hsign (unsignedEvent senderPub receiverPub (lib.Now w) c) senderPrivateKey
      rw [heq] at hkeep
      obtain ⟨h1, h2, h3, h4⟩ := hkeep
      have hauthor : ∀ publicKey, lib.GetPublicKey senderPrivateKey = Except.ok publicKey →
          e.PubKey = publicKey := by
        intro publicKey hg
        rw [h4, hg]
      refine ⟨h1, ⟨key, rfl, ?_⟩, h2, hauthor, hauthor senderPub, ?_⟩
      · rw [he, h3]
        rfl
      · intro err hg
        rw [h4, hg]
        rfl

theorem exampleLib_sign : SignContract exampleLib :=
  fun _ _ => ⟨rfl, rfl, rfl, rfl⟩

/-- C1 as amended, at a message with non-ASCII and delimiter-like characters
sent on behalf of "someone-else": the example library signs as go-nostr does,
and the event published is of kind 4, carries the encryption of the message,
is tagged ("p", "peer-hex") only, and is authored by the public key of the
signing key. -/
theorem sendMessage_signed_event_witness :
    SignContract exampleLib ∧
    (sendMessage exampleLib exampleRelay "someone-else" "peer-hex" "sk-local"
        "¡olé! [\"p\",\"x\"] ✓" World.start).2.published
      = World.start.published ++ [exampleSent] ∧
    exampleSent.Kind = KindEncryptedDirectMessage ∧
    (∃ key, exampleLib.ComputeSharedSecret "peer-hex" "sk-local" = Except.ok key ∧
      exampleLib.Encrypt World.start "¡olé! [\"p\",\"x\"] ✓" key =
        Except.ok exampleSent.Content) ∧
    exampleSent.Tags = [["p", "peer-hex"]] ∧
    exampleSent.PubKey = "pub-of-sk-local" :=
  ⟨exampleLib_sign, by decide,
    (sendMessage_signed_event exampleLib exampleRelay "someone-else" "peer-hex" "sk-local"
      "¡olé! [\"p\",\"x\"] ✓" World.start exampleSent exampleLib_sign (by decide)).1,
    (sendMessage_signed_event exampleLib exampleRelay "someone-else" "peer-hex" "sk-local"
      "¡olé! [\"p\",\"x\"] ✓" World.start exampleSent exampleLib_sign (by decide)).2.1,
    (sendMessage_signed_event exampleLib exampleRelay "someone-else" "peer-hex" "sk-local"
      "¡olé! [\"p\",\"x\"] ✓" World.start exampleSent exampleLib_sign (by decide)).2.2.1,
    (sendMessage_signed_event exampleLib exampleRelay "someone-else" "peer-hex" "sk-local"
      "¡olé! [\"p\",\"x\"] ✓" World.start exampleSent exampleLib_sign
      (by decide)).2.2.2.1 "pub-of-sk-local" rfl⟩

/-- C8: the result of `sendMessage` is decided by key agreement, encryption and
publish only. If `ComputeSharedSecret` fails, its error is returned and the
world is unchanged (nothing published); otherwise, if `Encrypt` fails, likewise;
otherwise exactly one event, the signed one, is added to the published events
and the result is the result of `Publish` on it. The error `Sign` returns is
discarded: replacing it by any other leaves `sendMessage` unchanged. -/
theorem sendMessage_result (lib : Lib) (relay : Relay)
    (senderPub receiverPub senderPrivateKey message : String) (w : World) :
    (∀ err, lib.ComputeSharedSecret receiverPub senderPrivateKey = Except.error err →
      sendMessage lib relay senderPub receiverPub senderPrivateKey message w = (some err, w)) ∧
    (∀ key err, lib.ComputeSharedSecret receiverPub senderPrivateKey = Except.ok key →
      lib.Encrypt w message key = Except.error err →
      sendMessage lib relay senderPub receiverPub senderPrivateKey message w = (some err, w)) ∧
    (∀ key c, lib.ComputeSharedSecret receiverPub senderPrivateKey = Except.ok key →
      lib.Encrypt w message key = Except.ok c →
      sendMessage lib relay senderPub receiverPub senderPrivateKey message w =
        (lib.Publish w relay
            (lib.Sign (unsignedEvent senderPub receiverPub (lib.Now w) c) senderPrivateKey).1,
          { w with published := w.published ++
            [(lib.Sign (unsignedEvent senderPub receiverPub (lib.Now w) c)
              senderPrivateKey).1] })) ∧
    (∀ signError : Event → String → Option Err,
      sendMessage { lib with Sign := fun e k => ((lib.Sign e k).1, signError e k) } relay
          senderPub receiverPub senderPrivateKey message w =
        sendMessage lib relay senderPub receiverPub senderPrivateKey message w) := by
  refine ⟨?_, ?_, ?_, ?_⟩
  · intro err h
    exact sendMessage_secret_error lib relay senderPub receiverPub senderPrivateKey message w err h
  · intro key err hk he
    exact sendMessage_encrypt_error lib relay senderPub receiverPub senderPrivateKey message w
      key err hk he
  · intro key c hk he
    exact sendMessage_publish lib relay senderPub receiverPub senderPrivateKey message w
      key c hk he
  · intro signError
    cases hk : lib.ComputeSharedSecret receiverPub senderPrivateKey with
    | error err => simp [sendMessage, hk]
    | ok key =>
      cases he : lib.Encrypt w message key with
      | error err => simp [sendMessage, hk, he]
      | ok c => simp [sendMessage, hk, he]

/-- C8 on the example library when signing fails: the event is published all
the same and the result is the relay's answer (success). -/
theorem sendMessage_result_witness :
    sendMessage { exampleLib with Sign := fun e _ => (e, some "invalid secret key") }
        exampleRelay "pub-of-sk-local" "peer-hex" "sk-local" "hi" World.start =
      (none, { World.start with published :=
        [{ ID := "", PubKey := "pub-of-sk-local", CreatedAt := 1700000000, Kind := 4,
           Tags := [["p", "peer-hex"]], Content := "enc:hi", Sig := "" }] }) :=
  ((sendMessage_result { exampleLib with Sign := fun e _ => (e, some "invalid secret key") }
      exampleRelay "pub-of-sk-local" "peer-hex" "sk-local" "hi" World.start).2.2.1
    [1, 2, 3] "enc:hi" rfl rfl).trans (by decide)

/-! ## `decodePublicKey` and `main` -/

/-- C10: `decodePublicKey` ignores the decoded prefix: whenever `Decode`
succeeds with a string payload it returns that payload, whatever the prefix;
and it panics exactly when `Decode` returns an error or a payload that is not
a string. -/
theorem decodePublicKey_spec (lib : Lib) (encodedKey : String) :
    (∀ pfx payload, lib.Decode encodedKey = Except.ok (pfx, Any.string payload) →
      decodePublicKey lib encodedKey = Except.ok payload) ∧
    ((∃ p, decodePublicKey lib encodedKey = Except.error p) ↔
      ((∃ err, lib.Decode encodedKey = Except.error err) ∨
        (∃ pfx typeName, lib.Decode encodedKey = Except.ok (pfx, Any.other typeName)))) := by
  constructor
  · intro pfx payload h
    simp [decodePublicKey, h]
  · cases h : lib.Decode encodedKey with
    | error err => simp [decodePublicKey, h]
    | ok v =>
      obtain ⟨pfx, payload⟩ := v
      cases payload with
      | string s => simp [decodePublicKey, h]
      | other typeName => simp [decodePublicKey, h]

/-- C10 on a secret-key encoding: a library that decodes "nsec1xyz" to the
prefix "nsec" and the string "00ff" makes `decodePublicKey` return "00ff". -/
theorem decodePublicKey_spec_witness :
    decodePublicKey { exampleLib with Decode := fun _ => Except.ok ("nsec", Any.string "00ff") }
      "nsec1xyz" = Except.ok "00ff" :=
  (decodePublicKey_spec
    { exampleLib with Decode := fun _ => Except.ok ("nsec", Any.string "00ff") }
    "nsec1xyz").1 "nsec" "00ff" rfl

/-- C4 fails as stated: with a library whose `Decode` rejects the configured
peer key and whose `RelayConnect` succeeds, `main` panics with the decode error
after the relay has been dialed. -/
theorem main_dials_before_decode :
    main { exampleLib with Decode := fun _ => Except.error "invalid bech32 string" }
        ["hello"] World.start =
      (Exit.panicked (Panic.error "invalid bech32 string"),
        { World.start with dialed := ["wss://relay.damus.io"], cancelled := true }) := by
  decide

/-- C4 as amended: when decoding the configured peer key returns an error,
`decodePublicKey` panics with that error; in `main` this happens after
`RelayConnect` has been called and has succeeded, so the program aborts with
the relay dialed, and with nothing printed, subscribed or published and no
receiver started; when `RelayConnect` fails, `main` aborts with the connection
error instead. -/
theorem main_decode_error (lib : Lib) (stdin : List String) (w : World) (err : Err)
    (publicKey : String)
    (hpub : lib.GetPublicKey (lib.GeneratePrivateKey w) = Except.ok publicKey)
    (hdec : lib.Decode receiverPub = Except.error err) :
    decodePublicKey lib receiverPub = Except.error (Panic.error err) ∧
    (∀ relay, lib.RelayConnect w relayURL = Except.ok relay →
      main lib stdin w =
        (Exit.panicked (Panic.error err),
          { w with dialed := w.dialed ++ [relayURL], cancelled := true })) ∧
    (∀ connErr, lib.RelayConnect w relayURL = Except.error connErr →
      main lib stdin w =
        (Exit.panicked (Panic.error connErr),
          { w with dialed := w.dialed ++ [relayURL], cancelled := true })) := by
  have hd : decodePublicKey lib receiverPub = Except.error (Panic.error err) := by
    simp [decodePublicKey, hdec]
  refine ⟨hd, ?_, ?_⟩
  · intro relay hconn
    simp [main, hpub, hconn, hd]
  · intro connErr hconn
    simp [main, hpub, hconn]

/-- C4 as amended, on the example library with a rejecting `Decode`. -/
theorem main_decode_error_witness :
    main { exampleLib with Decode := fun _ => Except.error "checksum failed" } [] World.start =
      (Exit.panicked (Panic.error "checksum failed"),
        { World.start with dialed := World.start.dialed ++ [relayURL], cancelled := true }) :=
  (main_decode_error { exampleLib with Decode := fun _ => Except.error "checksum failed" }
    [] World.start "checksum failed" "pub-of-sk-local" rfl rfl).2.1 { URL := relayURL } rfl

/-! ## `handleUserInput` -/

theorem join_cons (a : String) (l : List String) :
    String.join (a :: l) = a ++ String.join l := by
  apply String.ext
  simp [String.join_eq, String.data_append]

theorem print_print (w : World) (a b : String) :
    (w.print a).print b = w.print (a ++ b) := by
  simp [World.print, String.append_assoc]

theorem scanLoop_cons (lib : Lib) (relay : Relay)
    (senderPub receiverPub senderPrivateKey : String) (message : String)
    (rest : List String) (w : World) :
    scanLoop lib relay senderPub receiverPub senderPrivateKey (message :: rest) w =
      scanLoop lib relay senderPub receiverPub senderPrivateKey rest
        (sendTurn lib relay senderPub receiverPub senderPrivateKey w message) := by
  unfold sendTurn
  rcases h : sendMessage lib relay senderPub receiverPub senderPrivateKey message w with ⟨r, w1⟩
  cases r with
  | some err => simp [scanLoop, h, sendReport, print_print, String.append_assoc]
  | none => simp [scanLoop, h, sendReport, print_print, String.append_assoc]

theorem sendTurn_stdout (lib : Lib) (relay : Relay)
    (senderPub receiverPub senderPrivateKey : String) (message : String) (w : World) :
    (sendTurn lib relay senderPub receiverPub senderPrivateKey w message).stdout =
      w.stdout ++ sendReport message
        (sendMessage lib relay senderPub receiverPub senderPrivateKey message w).1 := by
  simp [sendTurn, World.print, sendMessage_stdout]

theorem scanLoop_foldl (lib : Lib) (relay : Relay)
    (senderPub receiverPub senderPrivateKey : String) (stdin : List String) (w : World) :
    scanLoop lib relay senderPub receiverPub senderPrivateKey stdin w =
      stdin.foldl (sendTurn lib relay senderPub receiverPub senderPrivateKey) w := by
  induction stdin generalizing w with
  | nil => rfl
  | cons message rest ih => rw [scanLoop_cons, ih, List.foldl_cons]

theorem sendResults_length (lib : Lib) (relay : Relay)
    (senderPub receiverPub senderPrivateKey : String) (stdin : List String) (w : World) :
    (sendResults lib relay senderPub receiverPub senderPrivateKey stdin w).length =
      stdin.length := by
  induction stdin generalizing w with
  | nil => rfl
  | cons message rest ih => simp [sendResults, ih]

theorem scanLoop_stdout (lib : Lib) (relay : Relay)
    (senderPub receiverPub senderPrivateKey : String) (stdin : List String) (w : World) :
    (scanLoop lib relay senderPub receiverPub senderPrivateKey stdin w).stdout =
      w.stdout ++ String.join (List.zipWith sendReport stdin
        (sendResults lib relay senderPub receiverPub senderPrivateKey stdin w)) := by
  induction stdin generalizing w with
  | nil => simp [scanLoop, sendResults, String.join]
  | cons message rest ih =>
    rw [scanLoop_cons, ih, sendTurn_stdout]
    simp [sendResults, join_cons, String.append_assoc]

/-- C3: a failed send never ends the loop or loses input. For every sequence
of input lines and whatever each send returns, `handleUserInput` is the prompt
followed by one turn per line, in input order, a turn being one call of
`sendMessage` on the line and then its report; there is one send result per
line; and the output is the prompt "Send Message: " followed, for each line in
order, by "Error sending message: <err>\n" if that send returned the error
<err> and by "\rMessage sent: <line>\n" otherwise, each followed by a fresh
"Send Message: " prompt. -/
theorem handleUserInput_output (lib : Lib) (relay : Relay)
    (senderPub receiverPub senderPrivateKey : String) (stdin : List String) (w : World) :
    handleUserInput lib relay senderPub receiverPub senderPrivateKey stdin w =
      stdin.foldl (sendTurn lib relay senderPub receiverPub senderPrivateKey)
        (w.print "Send Message: ") ∧
    (sendResults lib relay senderPub receiverPub senderPrivateKey stdin
      (w.print "Send Message: ")).length = stdin.length ∧
    (handleUserInput lib relay senderPub receiverPub senderPrivateKey stdin w).stdout =
      w.stdout ++ "Send Message: " ++
        String.join (List.zipWith sendReport stdin
          (sendResults lib relay senderPub receiverPub senderPrivateKey stdin
            (w.print "Send Message: "))) ∧
    (∀ message, sendReport message none = "\rMessage sent: " ++ message ++ "\nSend Message: ") ∧
    (∀ message err,
      sendReport message (some err) = "Error sending message: " ++ err ++ "\nSend Message: ") := by
  refine ⟨?_, ?_, ?_, ?_, ?_⟩
  · exact scanLoop_foldl lib relay senderPub receiverPub senderPrivateKey stdin _
  · exact sendResults_length lib relay senderPub receiverPub senderPrivateKey stdin _
  · unfold handleUserInput
    rw [scanLoop_stdout]
    rfl
  · intro message
    simp [sendReport, String.append_assoc]
  · intro message err
    simp [sendReport, String.append_assoc]

/-- C3 on three lines whose second send is rejected by the relay: the loop
goes on, and the third line is sent. -/
theorem handleUserInput_output_witness :
    sendResults exampleLib exampleRelay "pub-of-sk-local" "peer-hex" "sk-local"
        ["one", "two", "three"] (World.start.print "Send Message: ") =
      [none, some "relay rejected", none] ∧
    (handleUserInput exampleLib exampleRelay "pub-of-sk-local" "peer-hex" "sk-local"
        ["one", "two", "three"] World.start).stdout =
      "Send Message: \rMessage sent: one\nSend Message: " ++
      "Error sending message: relay rejected\nSend Message: " ++
      "\rMessage sent: three\nSend Message: " :=
  ⟨by decide,
    ((handleUserInput_output exampleLib exampleRelay "pub-of-sk-local" "peer-hex" "sk-local"
      ["one", "two", "three"] World.start).2.2.1).trans (by decide)⟩

theorem sendTurn_published (lib : Lib) (relay : Relay)
    (senderPub receiverPub senderPrivateKey : String) (message : String) (w : World)
    (key : Bytes)
    (hk : lib.ComputeSharedSecret receiverPub senderPrivateKey = Except.ok key)
    (he : ∀ v m, ∃ c, lib.Encrypt v m key = Except.ok c) :
    (sendTurn lib relay senderPub receiverPub senderPrivateKey w message).published.length =
      w.published.length + 1 := by
  obtain ⟨c, hc⟩ := he w message
  simp [sendTurn, World.print,
    sendMessage_publish lib relay senderPub receiverPub senderPrivateKey message w key c hk hc]

/-- C5 fails as stated: on the single empty input line the example sender
encrypts the empty message and publishes an event for it. -/
theorem handleUserInput_sends_empty_line :
    (handleUserInput exampleLib exampleRelay "pub-of-sk-local" "peer-hex" "sk-local"
        [""] World.start).published =
      [{ ID := "id", PubKey := "pub-of-sk-local", CreatedAt := 1700000000, Kind := 4,
         Tags := [["p", "peer-hex"]], Content := "enc:", Sig := "sig-by-sk-local" }] ∧
    (handleUserInput exampleLib exampleRelay "pub-of-sk-local" "peer-hex" "sk-local"
        [""] World.start).stdout = "Send Message: \rMessage sent: \nSend Message: " := by
  decide

/-- C5 as amended: the sender processes every input line, empty or not. For
every sequence of lines read from input, `handleUserInput` runs one turn, with
one call of `sendMessage`, for each line in order, and when key agreement and
encryption succeed it publishes one event for each line. -/
theorem handleUserInput_publishes_every_line (lib : Lib) (relay : Relay)
    (senderPub receiverPub senderPrivateKey : String) (stdin : List String) (w : World)
    (key : Bytes)
    (hk : lib.ComputeSharedSecret receiverPub senderPrivateKey = Except.ok key)
    (he : ∀ v m, ∃ c, lib.Encrypt v m key = Except.ok c) :
    handleUserInput lib relay senderPub receiverPub senderPrivateKey stdin w =
      stdin.foldl (sendTurn lib relay senderPub receiverPub senderPrivateKey)
        (w.print "Send Message: ") ∧
    (handleUserInput lib relay senderPub receiverPub senderPrivateKey stdin w).published.length =
      w.published.length + stdin.length := by
  refine ⟨scanLoop_foldl lib relay senderPub receiverPub senderPrivateKey stdin _, ?_⟩
  unfold handleUserInput
  have hgen : ∀ v : World,
      (scanLoop lib relay senderPub receiverPub senderPrivateKey stdin v).published.length =
        v.published.length + stdin.length := by
    induction stdin with
    | nil => intro v; rfl
    | cons message rest ih =>
      intro v
      rw [scanLoop_cons, ih,
        sendTurn_published lib relay senderPub receiverPub senderPrivateKey message v key hk he]
      simp only [List.length_cons]
      omega
  rw [hgen]
  rfl

/-- C5 as amended, on an input of an empty line, a word and another empty line:
three events are published. -/
theorem handleUserInput_publishes_every_line_witness :
    (handleUserInput exampleLib exampleRelay "pub-of-sk-local" "peer-hex" "sk-local"
      ["", "word", ""] World.start).published.length = World.start.published.length + 3 :=
  (handleUserInput_publishes_every_line exampleLib exampleRelay "pub-of-sk-local" "peer-hex"
    "sk-local" ["", "word", ""] World.start [1, 2, 3] rfl
    (fun _ m => ⟨"enc:" ++ m, rfl⟩)).2

/-! ## `messageHandler` and `receiveMessages` -/

theorem print_empty (w : World) : w.print "" = w := by
  simp [World.print]

theorem messageHandler_other_kind (lib : Lib) (sharedKey : Bytes) (e : Event)
    (rest : List Sel) (w : World) (h : e.Kind ≠ KindEncryptedDirectMessage) :
    messageHandler lib sharedKey (Sel.recv (some e) :: rest) w =
      messageHandler lib sharedKey rest w := by
  simp [messageHandler, h]

theorem messageHandler_decrypted (lib : Lib) (sharedKey : Bytes) (e : Event) (p : String)
    (rest : List Sel) (w : World) (h : e.Kind = KindEncryptedDirectMessage)
    (hd : lib.Decrypt e.Content sharedKey = Except.ok p) :
    messageHandler lib sharedKey (Sel.recv (some e) :: rest) w =
      messageHandler lib sharedKey rest
        (w.print ("\rMessage received: " ++ p ++ "\nSend Message: ")) := by
  simp [messageHandler, h, hd]

theorem messageHandler_undecryptable (lib : Lib) (sharedKey : Bytes) (e : Event) (err : Err)
    (rest : List Sel) (w : World) (h : e.Kind = KindEncryptedDirectMessage)
    (hd : lib.Decrypt e.Content sharedKey = Except.error err) :
    messageHandler lib sharedKey (Sel.recv (some e) :: rest) w =
      (Exit.panicked (Panic.error err), w) := by
  simp [messageHandler, h, hd]

theorem receivedText_cons_other (lib : Lib) (sharedKey : Bytes) (e : Event)
    (events : List Event) (h : e.Kind ≠ KindEncryptedDirectMessage) :
    receivedText lib sharedKey (e :: events) = receivedText lib sharedKey events := by
  simp [receivedText, List.filter_cons, h]

theorem receivedText_cons_decrypted (lib : Lib) (sharedKey : Bytes) (e : Event) (p : String)
    (events : List Event) (h : e.Kind = KindEncryptedDirectMessage)
    (hd : lib.Decrypt e.Content sharedKey = Except.ok p) :
    receivedText lib sharedKey (e :: events) =
      "\rMessage received: " ++ p ++ "\nSend Message: " ++
        receivedText lib sharedKey events := by
  simp [receivedText, List.filter_cons, h, join_cons, plaintext, hd]

/-- The handler after a run of events that all decrypt: it has printed their
display and goes on with the rest of the select outcomes. -/
theorem messageHandler_deliver (lib : Lib) (sharedKey : Bytes) (events : List Event)
    (rest : List Sel) (w : World) (h : AllDecrypt lib sharedKey events) :
    messageHandler lib sharedKey (deliver events ++ rest) w =
      messageHandler lib sharedKey rest (w.print (receivedText lib sharedKey events)) := by
  induction events generalizing w with
  | nil => simp [deliver, receivedText, String.join, print_empty]
  | cons e events ih =>
    have htail : AllDecrypt lib sharedKey events := fun x hx => h x (List.mem_cons_of_mem e hx)
    have hstep : deliver (e :: events) ++ rest =
        Sel.recv (some e) :: (deliver events ++ rest) := by
      simp [deliver]
    rw [hstep]
    by_cases hkind : e.Kind = KindEncryptedDirectMessage
    · obtain ⟨p, hp⟩ := h e (List.mem_cons_self e events) hkind
      rw [messageHandler_decrypted lib sharedKey e p _ w hkind hp, ih _ htail,
        receivedText_cons_decrypted lib sharedKey e p events hkind hp, print_print]
    · rw [messageHandler_other_kind lib sharedKey e _ w hkind, ih _ htail,
        receivedText_cons_other lib sharedKey e events hkind]

/-- The handler writes to standard output and touches nothing else. -/
theorem messageHandler_world (lib : Lib) (sharedKey : Bytes) (sel : List Sel) (w : World) :
    (messageHandler lib sharedKey sel w).2 =
      { w with stdout := (messageHandler lib sharedKey sel w).2.stdout } := by
  induction sel generalizing w with
  | nil => rfl
  | cons s rest ih =>
    cases s with
    | ctxDone => rfl
    | recv ev =>
      cases ev with
      | none => rfl
      | some e =>
        by_cases hkind : e.Kind = KindEncryptedDirectMessage
        · cases hd : lib.Decrypt e.Content sharedKey with
          | error err => rw [messageHandler_undecryptable lib sharedKey e err rest w hkind hd]
          | ok p =>
            rw [messageHandler_decrypted lib sharedKey e p rest w hkind hd]
            have h := ih (w.print ("\rMessage received: " ++ p ++ "\nSend Message: "))
            rw [h]
            simp [World.print]
        · rw [messageHandler_other_kind lib sharedKey e rest w hkind]
          exact ih w

theorem exampleEvents_decrypt :
    AllDecrypt exampleLib [1, 2, 3] [peerEvent, noteEvent, thirdPartyEvent] := by
  intro e hmem _
  simp only [List.mem_cons, List.mem_singleton, List.not_mem_nil, or_false] at hmem
  rcases hmem with rfl | rfl | rfl <;> exact ⟨_, rfl⟩

/-- C6: for every sequence of events delivered to `messageHandler` before
cancellation, all of whose encrypted direct messages decrypt, the handler has
printed, over the events of kind encrypted-direct-message in arrival order,
"\rMessage received: <P>\nSend Message: " with <P> the decryption of the
content, and waits for the next event; an event of another kind produces no
output; and if the next event is an encrypted direct message whose decryption
fails, the handler panics with that error, printing nothing for that event and
handling no later select outcome. -/
theorem messageHandler_output (lib : Lib) (sharedKey : Bytes) (events : List Event)
    (w : World) (h : AllDecrypt lib sharedKey events) :
    messageHandler lib sharedKey (deliver events) w =
      (Exit.waiting, w.print (receivedText lib sharedKey events)) ∧
    (∀ e p, e.Kind = KindEncryptedDirectMessage → lib.Decrypt e.Content sharedKey = Except.ok p →
      receivedText lib sharedKey (e :: events) =
        "\rMessage received: " ++ p ++ "\nSend Message: " ++
          receivedText lib sharedKey events) ∧
    (∀ e, e.Kind ≠ KindEncryptedDirectMessage →
      receivedText lib sharedKey (e :: events) = receivedText lib sharedKey events ∧
      ∀ rest v, messageHandler lib sharedKey (Sel.recv (some e) :: rest) v =
        messageHandler lib sharedKey rest v) ∧
    (∀ bad err later, bad.Kind = KindEncryptedDirectMessage →
      lib.Decrypt bad.Content sharedKey = Except.error err →
      messageHandler lib sharedKey (deliver events ++ Sel.recv (some bad) :: later) w =
        (Exit.panicked (Panic.error err), w.print (receivedText lib sharedKey events))) := by
  refine ⟨?_, ?_, ?_, ?_⟩
  · have := messageHandler_deliver lib sharedKey events [] w h
    simpa [messageHandler] using this
  · intro e p hk hd
    exact receivedText_cons_decrypted lib sharedKey e p events hk hd
  · intro e hk
    exact ⟨receivedText_cons_other lib sharedKey e events hk,
      fun rest v => messageHandler_other_kind lib sharedKey e rest v hk⟩
  · intro bad err later hk hd
    rw [messageHandler_deliver lib sharedKey events _ w h,
      messageHandler_undecryptable lib sharedKey bad err later _ hk hd]

/-- C6 on the example library: a direct message, a text note and a second
direct message arrive, then one that cannot be decrypted, then one more. -/
theorem messageHandler_output_witness :
    AllDecrypt exampleLib [1, 2, 3] [peerEvent, noteEvent, thirdPartyEvent] ∧
    messageHandler exampleLib [1, 2, 3]
        (deliver [peerEvent, noteEvent, thirdPartyEvent] ++
          Sel.recv (some garbageEvent) :: [Sel.recv (some peerEvent)]) World.start =
      (Exit.panicked (Panic.error "invalid padding"),
        World.start.print ("\rMessage received: dec:c2\nSend Message: " ++
          "\rMessage received: dec:c1\nSend Message: ")) :=
  ⟨exampleEvents_decrypt,
    ((messageHandler_output exampleLib [1, 2, 3] [peerEvent, noteEvent, thirdPartyEvent]
      World.start exampleEvents_decrypt).2.2.2
      garbageEvent "invalid padding" [Sel.recv (some peerEvent)] rfl rfl).trans (by decide)⟩

/-- C7: at the select that observes the cancellation, `messageHandler` returns
with the world as it is, whatever is still pending on the stream; and a
receiver that has subscribed and displayed the events delivered so far then
returns, closes its subscription once, and has printed nothing but the display
of those earlier events. -/
theorem receiveMessages_cancel (lib : Lib) (relay : Relay)
    (receiverPub senderPrivateKey : String) (sharedKey : Bytes) (senderPublicKey : String)
    (events : List Event) (pending : List Sel) (w : World)
    (hk : lib.ComputeSharedSecret receiverPub senderPrivateKey = Except.ok sharedKey)
    (hp : lib.GetPublicKey senderPrivateKey = Except.ok senderPublicKey)
    (hs : lib.Subscribe w relay [receiverFilter receiverPub senderPublicKey] = none)
    (h : AllDecrypt lib sharedKey events) :
    (∀ v, messageHandler lib sharedKey (Sel.ctxDone :: pending) v = (Exit.returned, v)) ∧
    messageHandler lib sharedKey (deliver events ++ Sel.ctxDone :: pending) w =
      (Exit.returned, w.print (receivedText lib sharedKey events)) ∧
    receiveMessages lib relay receiverPub senderPrivateKey
        (deliver events ++ Sel.ctxDone :: pending) w =
      (Exit.returned,
        { w with
          stdout := w.stdout ++ receivedText lib sharedKey events,
          subscribed := w.subscribed ++ [[receiverFilter receiverPub senderPublicKey]],
          closed := w.closed + 1 }) := by
  have hdone : ∀ v, messageHandler lib sharedKey (Sel.ctxDone :: pending) v =
      (Exit.returned, v) := fun v => rfl
  refine ⟨hdone, ?_, ?_⟩
  · rw [messageHandler_deliver lib sharedKey events _ w h, hdone]
  · unfold receiverFilter at hs
    simp only [receiveMessages, hk, hp, hs]
    rw [messageHandler_deliver lib sharedKey events _ _ h, hdone]
    simp [World.print, receiverFilter]

/-- C7 on the example library: cancellation is observed after one message,
with two more events pending. -/
theorem receiveMessages_cancel_witness :
    receiveMessages exampleLib exampleRelay "peer-hex" "sk-local"
        (deliver [peerEvent] ++ Sel.ctxDone ::
          [Sel.recv (some peerEvent), Sel.recv (some garbageEvent)]) World.start =
      (Exit.returned,
        { World.start with
          stdout := "\rMessage received: dec:c2\nSend Message: ",
          subscribed := [[receiverFilter "peer-hex" "pub-of-sk-local"]],
          closed := 1 }) :=
  ((receiveMessages_cancel exampleLib exampleRelay "peer-hex" "sk-local" [1, 2, 3]
    "pub-of-sk-local" [peerEvent] [Sel.recv (some peerEvent), Sel.recv (some garbageEvent)]
    World.start rfl rfl rfl
    (fun e hmem _ => by
      simp only [List.mem_singleton] at hmem
      subst hmem
      exact ⟨_, rfl⟩)).2.2).trans (by decide)

/-- C9: a nil event makes `messageHandler` panic with a nil dereference at the
select that receives it, so a stream that yields nil before cancellation is
observed ends in a panic, not a return; conversely, when every value received
is a non-nil event whose content decrypts if its kind is
encrypted-direct-message, the handler never panics. -/
theorem messageHandler_panics (lib : Lib) (sharedKey : Bytes) (sel : List Sel) (w : World)
    (h : ∀ ev, Sel.recv ev ∈ sel → ∃ e, ev = some e ∧
      (e.Kind = KindEncryptedDirectMessage →
        ∃ p, lib.Decrypt e.Content sharedKey = Except.ok p)) :
    (∀ p, (messageHandler lib sharedKey sel w).1 ≠ Exit.panicked p) ∧
    (∀ later v, messageHandler lib sharedKey (Sel.recv none :: later) v =
      (Exit.panicked Panic.nilDereference, v)) ∧
    (∀ (earlier : List (Option Event)) (later : List Sel) (v : World),
      ∃ p, (messageHandler lib sharedKey (earlier.map Sel.recv ++ Sel.recv none :: later) v).1 =
        Exit.panicked p) := by
  refine ⟨?_, fun _ _ => rfl, ?_⟩
  · induction sel generalizing w with
    | nil => intro p hp; simp [messageHandler] at hp
    | cons s rest ih =>
      have hrest : ∀ ev, Sel.recv ev ∈ rest → ∃ e, ev = some e ∧
          (e.Kind = KindEncryptedDirectMessage →
            ∃ p, lib.Decrypt e.Content sharedKey = Except.ok p) :=
        fun ev hev => h ev (List.mem_cons_of_mem s hev)
      cases s with
      | ctxDone => intro p hp; simp [messageHandler] at hp
      | recv ev =>
        obtain ⟨e, he, hdec⟩ := h ev (List.mem_cons_self _ _)
        subst he
        by_cases hkind : e.Kind = KindEncryptedDirectMessage
        · obtain ⟨p, hp⟩ := hdec hkind
          rw [messageHandler_decrypted lib sharedKey e p rest w hkind hp]
          exact ih _ hrest
        · rw [messageHandler_other_kind lib sharedKey e rest w hkind]
          exact ih _ hrest
  · intro earlier later
    induction earlier with
    | nil => intro v; exact ⟨Panic.nilDereference, rfl⟩
    | cons ev earlier ih =>
      intro v
      cases ev with
      | none => exact ⟨Panic.nilDereference, rfl⟩
      | some e =>
        have hstep : (some e :: earlier).map Sel.recv ++ Sel.recv none :: later =
            Sel.recv (some e) :: (earlier.map Sel.recv ++ Sel.recv none :: later) := by
          simp
        rw [hstep]
        by_cases hkind : e.Kind = KindEncryptedDirectMessage
        · cases hd : lib.Decrypt e.Content sharedKey with
          | error err =>
            rw [messageHandler_undecryptable lib sharedKey e err _ v hkind hd]
            exact ⟨Panic.error err, rfl⟩
          | ok p =>
            rw [messageHandler_decrypted lib sharedKey e p _ v hkind hd]
            exact ih _
        · rw [messageHandler_other_kind lib sharedKey e _ v hkind]
          exact ih _

/-- C9 on the example library: two events that decrypt and a cancellation do
not panic; the same two events followed by nil do. -/
theorem messageHandler_panics_witness :
    (messageHandler exampleLib [1, 2, 3]
        [Sel.recv (some peerEvent), Sel.recv (some noteEvent), Sel.ctxDone] World.start).1 ≠
      Exit.panicked Panic.nilDereference ∧
    (messageHandler exampleLib [1, 2, 3]
        [Sel.recv (some peerEvent), Sel.recv (some noteEvent), Sel.recv none]
        World.start).1 = Exit.panicked Panic.nilDereference :=
  ⟨(messageHandler_panics exampleLib [1, 2, 3]
      [Sel.recv (some peerEvent), Sel.recv (some noteEvent), Sel.ctxDone] World.start
      (fun ev hmem => by
        simp only [List.mem_cons, List.mem_singleton, List.not_mem_nil, or_false,
          Sel.recv.injEq, false_or, reduceCtorEq] at hmem
        rcases hmem with rfl | rfl
        · exact ⟨peerEvent, rfl, fun _ => ⟨_, rfl⟩⟩
        · exact ⟨noteEvent, rfl, fun _ => ⟨_, rfl⟩⟩)).1 Panic.nilDereference,
    by decide⟩

theorem tagIn_p (localPublicKey : String) (tag : List String) :
    tagIn "p" [localPublicKey] tag = true ↔ ∃ more, tag = "p" :: localPublicKey :: more := by
  cases tag with
  | nil => simp [tagIn]
  | cons n tail =>
    cases tail with
    | nil => simp [tagIn]
    | cons v more => simp [tagIn]

/-- An event matches the receiver's filter exactly when it satisfies the three
clauses. -/
theorem receiverFilter_matches (peer localPublicKey : String) (e : Event) :
    (receiverFilter peer localPublicKey).Matches e = true ↔
      ThreeClauses peer localPublicKey e := by
  simp only [Filter.Matches, receiverFilter, ThreeClauses, Bool.and_eq_true, decide_eq_true_eq,
    List.all_cons, List.all_nil, Bool.and_true, List.any_eq_true, tagIn_p, List.mem_singleton,
    List.cons_ne_nil, false_or]
  constructor
  · rintro ⟨⟨hkind, hauthor⟩, tag, hmem, more, rfl⟩
    exact ⟨hkind, hauthor, more, hmem⟩
  · rintro ⟨hkind, hauthor, more, hmem⟩
    exact ⟨⟨hkind, hauthor⟩, _, hmem, more, rfl⟩

theorem subscriptionEvents_receiver (peer localPublicKey : String) (incoming : List Event) :
    subscriptionEvents [receiverFilter peer localPublicKey] incoming =
      incoming.filter (fun e => (receiverFilter peer localPublicKey).Matches e) := by
  simp [subscriptionEvents]

/-- The display of events that are all encrypted direct messages is the
concatenation of their lines. -/
theorem receivedText_all_direct (lib : Lib) (sharedKey : Bytes) (events : List Event)
    (h : ∀ e ∈ events, e.Kind = KindEncryptedDirectMessage) :
    receivedText lib sharedKey events =
      String.join (events.map (displayLine lib sharedKey)) := by
  have hfilter : events.filter (fun e => decide (e.Kind = KindEncryptedDirectMessage)) =
      events := by
    rw [List.filter_eq_self]
    intro e he
    simpa using h e he
  unfold receivedText
  rw [hfilter]
  rfl

/-- C2: the receiver accepts only events that satisfy all three clauses of its
filter. `receiveMessages` subscribes with the filter whose matching events are
exactly those of kind encrypted-direct-message, authored by the configured
peer and carrying a "p" tag equal to the local public key; of the events the
relay sends, the subscription's stream delivers the matching ones, and
`messageHandler` decrypts and displays exactly those, in order, so every event
it handles satisfies the three clauses; an event failing any clause, such as
one authored by a third party and tagged to the local key, never reaches the
handler and leaves the run, output included, as it is without it. -/
theorem receiveMessages_accepts (lib : Lib) (relay : Relay)
    (receiverPub senderPrivateKey : String) (sharedKey : Bytes) (senderPublicKey : String)
    (incoming : List Event) (w : World)
    (hk : lib.ComputeSharedSecret receiverPub senderPrivateKey = Except.ok sharedKey)
    (hp : lib.GetPublicKey senderPrivateKey = Except.ok senderPublicKey)
    (hs : lib.Subscribe w relay [receiverFilter receiverPub senderPublicKey] = none)
    (h : AllDecrypt lib sharedKey
      (subscriptionEvents [receiverFilter receiverPub senderPublicKey] incoming)) :
    receiveMessages lib relay receiverPub senderPrivateKey
        (deliver (subscriptionEvents [receiverFilter receiverPub senderPublicKey] incoming)) w =
      (Exit.waiting,
        { w with
          stdout := w.stdout ++ String.join
            ((incoming.filter
              (fun e => (receiverFilter receiverPub senderPublicKey).Matches e)).map
              (displayLine lib sharedKey)),
          subscribed := w.subscribed ++ [[receiverFilter receiverPub senderPublicKey]] }) ∧
    (∀ e ∈ subscriptionEvents [receiverFilter receiverPub senderPublicKey] incoming,
      ThreeClauses receiverPub senderPublicKey e) ∧
    (∀ e, (receiverFilter receiverPub senderPublicKey).Matches e = true ↔
      (e.Kind = KindEncryptedDirectMessage ∧ e.PubKey = receiverPub ∧
        ∃ more, ("p" :: senderPublicKey :: more) ∈ e.Tags)) ∧
    (∀ e earlier later, ¬ ThreeClauses receiverPub senderPublicKey e →
      subscriptionEvents [receiverFilter receiverPub senderPublicKey]
          (earlier ++ e :: later) =
        subscriptionEvents [receiverFilter receiverPub senderPublicKey] (earlier ++ later)) := by
  refine ⟨?_, ?_, fun e => receiverFilter_matches receiverPub senderPublicKey e, ?_⟩
  rotate_left
  · intro e he
    rw [subscriptionEvents_receiver, List.mem_filter] at he
    exact (receiverFilter_matches receiverPub senderPublicKey e).1 he.2
  rotate_left
  · have hdirect : ∀ e ∈ subscriptionEvents [receiverFilter receiverPub senderPublicKey] incoming,
        e.Kind = KindEncryptedDirectMessage := by
      intro e he
      rw [subscriptionEvents_receiver, List.mem_filter] at he
      exact ((receiverFilter_matches receiverPub senderPublicKey e).1 he.2).1
    have hrun := messageHandler_deliver lib sharedKey
      (subscriptionEvents [receiverFilter receiverPub senderPublicKey] incoming) []
      { w with subscribed := w.subscribed ++ [[receiverFilter receiverPub senderPublicKey]] } h
    rw [List.append_nil] at hrun
    have hlit : Filter.mk [KindEncryptedDirectMessage] [receiverPub]
        [("p", [senderPublicKey])] = receiverFilter receiverPub senderPublicKey := rfl
    have htext := receivedText_all_direct lib sharedKey _ hdirect
    rw [subscriptionEvents_receiver] at htext
    simp only [receiveMessages, hk, hp, hlit, hs]
    rw [hrun]
    simp [messageHandler, World.print, subscriptionEvents_receiver, htext]
  · intro e earlier later hne
    have hno : (receiverFilter receiverPub senderPublicKey).Matches e = false := by
      cases hm : (receiverFilter receiverPub senderPublicKey).Matches e with
      | false => rfl
      | true => exact absurd ((receiverFilter_matches receiverPub senderPublicKey e).1 hm) hne
    simp [subscriptionEvents_receiver, List.filter_cons, hno]

theorem exampleStream :
    subscriptionEvents [receiverFilter "peer-hex" "pub-of-sk-local"]
      [peerEvent, thirdPartyEvent, noteEvent, strayEvent] = [peerEvent] := by
  decide

theorem exampleStream_decrypts :
    AllDecrypt exampleLib [1, 2, 3]
      (subscriptionEvents [receiverFilter "peer-hex" "pub-of-sk-local"]
        [peerEvent, thirdPartyEvent, noteEvent, strayEvent]) := by
  rw [exampleStream]
  intro e hmem _
  simp only [List.mem_singleton] at hmem
  subst hmem
  exact ⟨_, rfl⟩

/-- C2 on the example library: the relay sends a message of the peer, one of a
third party tagged to the local key, a text note of the peer and a message of
the peer tagged to somebody else; only the first is displayed. -/
theorem receiveMessages_accepts_witness :
    receiveMessages exampleLib exampleRelay "peer-hex" "sk-local"
        (deliver (subscriptionEvents [receiverFilter "peer-hex" "pub-of-sk-local"]
          [peerEvent, thirdPartyEvent, noteEvent, strayEvent])) World.start =
      (Exit.waiting,
        { World.start with
          stdout := "\rMessage received: dec:c2\nSend Message: ",
          subscribed := [[receiverFilter "peer-hex" "pub-of-sk-local"]] }) :=
  ((receiveMessages_accepts exampleLib exampleRelay "peer-hex" "sk-local" [1, 2, 3]
    "pub-of-sk-local" [peerEvent, thirdPartyEvent, noteEvent, strayEvent] World.start
    rfl rfl rfl exampleStream_decrypts).1).trans (by decide)

end NostrChat
